import Mathlib

/-!
Verification of the rudit terminal editor core: a shallow embedding of
`src/pos.rs`, `src/buffer.rs` and `src/editor.rs`, followed by theorems
about the behaviour of the embedded operations.

Modelling conventions:
* `usize` is modelled as `Nat`; `checked_sub(..).unwrap_or_default()` is the
  truncated subtraction of `Nat`; the single unguarded `usize` subtraction
  that can underflow (`scroll.x + viewport_size.x - 1` in `cap_scroll`) is
  modelled with release-build wrapping semantics via `wrapPred`.
* a text line is a `List Char` (the addressable unit of a line is a
  character; the source indexes bytes, which coincides on ASCII content).
* file I/O is replaced by explicit data: reading is an `Option (List Char)`
  argument (`none` = read failure), saving yields the written content.
-/

namespace Rudit

/-- Characters of a string literal, used to write concrete lines. -/
def str (s : String) : List Char := s.data

/-- 2D position (`src/pos.rs`, struct `Pos`): column `x`, line `y`. -/
structure Pos where
  x : Nat
  y : Nat
deriving DecidableEq

/-- Componentwise addition (`impl Add for Pos`). -/
def Pos.add (a b : Pos) : Pos := ⟨a.x + b.x, a.y + b.y⟩

instance : Add Pos := ⟨Pos.add⟩

/-- Componentwise saturating subtraction (`impl Sub for Pos`, which uses
`checked_sub(..).unwrap_or_default()` on each axis). -/
def Pos.ssub (a b : Pos) : Pos := ⟨a.x - b.x, a.y - b.y⟩

instance : Sub Pos := ⟨Pos.ssub⟩

/-- Largest `usize` value (64-bit target). -/
def USIZE_MAX : Nat := 2 ^ 64 - 1

/-- `n - 1` on `usize` with release-build wrapping semantics, for an operand
already in `usize` range: `0 - 1` wraps to `USIZE_MAX`. -/
def wrapPred (n : Nat) : Nat := if n = 0 then USIZE_MAX else n - 1

/-- The line buffer (`src/buffer.rs`, struct `Buffer`). -/
structure Buffer where
  data : List (List Char)
  cursor : Pos
  scroll : Pos
  viewport_size : Pos
  endl : List Char
  top_left_corner : Pos
deriving DecidableEq

/-- `Buffer::new`. -/
def Buffer.new : Buffer :=
  { data := [], cursor := ⟨0, 0⟩, endl := ['\n'], scroll := ⟨0, 0⟩,
    viewport_size := ⟨0, 0⟩, top_left_corner := ⟨0, 0⟩ }

/-- `Buffer::set_top_left_corner`. -/
def Buffer.set_top_left_corner (b : Buffer) (pos : Pos) : Buffer :=
  { b with top_left_corner := pos }

/-- `Buffer::content_lines_len`. -/
def Buffer.content_lines_len (b : Buffer) : Nat := b.data.length

/-- `Buffer::set_viewport_size`. -/
def Buffer.set_viewport_size (b : Buffer) (size : Pos) : Buffer :=
  { b with viewport_size := size }

/-- `Buffer::get_viewport`: for `y` in `scroll.y .. scroll.y + viewport_size.y`,
if a line exists at `y`, yield `(top_left_corner + (0, y) - scroll, line)`. -/
def Buffer.get_viewport (b : Buffer) : List (Pos × List Char) :=
  (List.range' b.scroll.y b.viewport_size.y).filterMap fun y =>
    (b.data[y]?).map fun line => (b.top_left_corner + Pos.mk 0 y - b.scroll, line)

/-- `Buffer::cap_scroll`.  The `y` axis guards the `viewport_size.y - 1`
subtraction with `checked_sub(..).unwrap_or_default()`; the `x` axis does not,
so `scroll.x + viewport_size.x - 1` wraps when both are 0 (`wrapPred`). -/
def Buffer.cap_scroll (b : Buffer) : Buffer :=
  let x := if b.cursor.x < b.scroll.x then b.cursor.x
    else if wrapPred (b.scroll.x + b.viewport_size.x) < b.cursor.x then
      b.cursor.x - b.viewport_size.x + 1
    else b.scroll.x
  let y := if b.cursor.y < b.scroll.y then b.cursor.y
    else if b.scroll.y + (b.viewport_size.y - 1) < b.cursor.y then
      b.cursor.y - b.viewport_size.y + 1
    else b.scroll.y
  { b with scroll := ⟨x, y⟩ }

/-- `Buffer::move_cursor`: clamp `pos.y` to the existing lines, clamp `pos.x`
to the length of the resulting line, then re-cap the scroll. -/
def Buffer.move_cursor (b : Buffer) (pos : Pos) : Buffer :=
  let y := min pos.y (b.data.length - 1)
  let x := min ((b.data.getD y []).length) pos.x
  Buffer.cap_scroll { b with cursor := ⟨x, y⟩ }

/-- `Buffer::move_cursor_relative`: `self.cursor = self.cursor + pos`
(note: the source performs no clamping and no scroll capping here). -/
def Buffer.move_cursor_relative (b : Buffer) (pos : Pos) : Buffer :=
  { b with cursor := b.cursor + pos }

/-- Loop body of `Buffer::move_left_n`; `moved` is the accumulated count. -/
def moveLeftLoop (data : List (List Char)) (cursor : Pos) (n moved : Nat) :
    Pos × Nat :=
  if _hm : n ≤ moved then (cursor, moved)
  else if cursor = ⟨0, 0⟩ then (cursor, moved)
  else if _hx : cursor.x = 0 then
    moveLeftLoop data ⟨(data.getD (cursor.y - 1) []).length, cursor.y - 1⟩ n
      (moved + 1)
  else if n - moved ≤ cursor.x then (⟨cursor.x - (n - moved), cursor.y⟩, n)
  else moveLeftLoop data ⟨0, cursor.y⟩ n (moved + cursor.x)
termination_by n - moved
decreasing_by
  all_goals simp_wf
  all_goals omega

/-- `Buffer::move_left_n`: walk the cursor left, then cap the scroll; returns
the updated buffer and the `moved` count the source returns. -/
def Buffer.move_left_n (b : Buffer) (n : Nat) : Buffer × Nat :=
  let r := moveLeftLoop b.data b.cursor n 0
  (Buffer.cap_scroll { b with cursor := r.1 }, r.2)

/-- Loop body of `Buffer::move_right_n`.  In the final branch the source
adds `cursor.x` (not `line_len - cursor.x`) to `moved`, which is modelled
verbatim here. -/
def moveRightLoop (data : List (List Char)) (fileEnd : Pos) (cursor : Pos)
    (n moved : Nat) : Pos × Nat :=
  if _hm : n ≤ moved then (cursor, moved)
  else if cursor = fileEnd then (cursor, moved)
  else if _hx : cursor.x = (data.getD cursor.y []).length then
    moveRightLoop data fileEnd ⟨0, cursor.y + 1⟩ n (moved + 1)
  else if n - moved ≤ (data.getD cursor.y []).length - cursor.x then
    (⟨cursor.x + (n - moved), cursor.y⟩, n)
  else
    moveRightLoop data fileEnd ⟨(data.getD cursor.y []).length, cursor.y⟩ n
      (moved + cursor.x)
termination_by
  2 * (n - moved) + (if cursor.x = (data.getD cursor.y []).length then 0 else 1)
decreasing_by
  all_goals simp_wf
  all_goals simp only [List.getD, List.get?_eq_getElem?] at *
  all_goals split_ifs <;> omega

/-- `Buffer::move_right_n`: the document end is the end of the last line. -/
def Buffer.move_right_n (b : Buffer) (n : Nat) : Buffer × Nat :=
  let lastY := b.data.length - 1
  let fileEnd : Pos := ⟨(b.data.getD lastY []).length, lastY⟩
  let r := moveRightLoop b.data fileEnd b.cursor n 0
  (Buffer.cap_scroll { b with cursor := r.1 }, r.2)

/-- Loop body of `Buffer::delete_n_chars_back_from_cursor`; `rem` is
`n - deleted`.  The three branches mirror the source: merge with the
previous line when `cursor.x == 0`; splice the current line when
`cursor.x >= rem`; otherwise replace the whole current line by the empty
string (the source sets it to `String::new()`).  `none` models the
`context(..)?` early returns. -/
def deleteBackLoop (data : List (List Char)) (cursor : Pos) (rem : Nat) :
    Option (List (List Char) × Pos) :=
  if _h0 : rem = 0 then some (data, cursor)
  else if cursor = ⟨0, 0⟩ then some (data, cursor)
  else if _hx : cursor.x = 0 then
    match data[cursor.y]?, data[cursor.y - 1]? with
    | some cur, some prev =>
      deleteBackLoop ((data.eraseIdx cursor.y).set (cursor.y - 1) (prev ++ cur))
        ⟨prev.length, cursor.y - 1⟩ (rem - 1)
    | _, _ => none
  else if rem ≤ cursor.x then
    match data[cursor.y]? with
    | some cur =>
      if cursor.x ≤ cur.length then
        some (data.set cursor.y (cur.take (cursor.x - rem) ++ cur.drop cursor.x),
          ⟨cursor.x - rem, cursor.y⟩)
      else none
    | none => none
  else
    match data[cursor.y]? with
    | some _ => deleteBackLoop (data.set cursor.y []) ⟨0, cursor.y⟩
        (rem - cursor.x)
    | none => none
termination_by rem
decreasing_by
  all_goals simp_wf
  all_goals omega

/-- `Buffer::delete_n_chars_back_from_cursor`: run the deletion loop, then
store the final cursor and cap the scroll. -/
def Buffer.delete_n_chars_back_from_cursor (b : Buffer) (n : Nat) :
    Option Buffer :=
  (deleteBackLoop b.data b.cursor n).map fun dc =>
    Buffer.cap_scroll { b with data := dc.1, cursor := dc.2 }

/-- Drop one trailing carriage return, as Rust `str::lines` does on a piece
that ended with `"\r\n"`. -/
def stripTrailCR (l : List Char) : List Char :=
  if l.getLast? = some '\r' then l.dropLast else l

/-- Accumulating worker for `rustLines`: split at every `'\n'`, strip a `'\r'`
directly before it, keep a final unterminated piece as is, and produce no
trailing empty piece for a final terminator. -/
def rustLinesAux (acc : List Char) (s : List Char) : List (List Char) :=
  match s with
  | [] => if acc.isEmpty then [] else [acc]
  | c :: rest =>
    if c = '\n' then stripTrailCR acc :: rustLinesAux [] rest
    else rustLinesAux (acc ++ [c]) rest

/-- Rust `str::lines`, used by `Buffer::load_from_str` / `load_from_file`. -/
def rustLines (s : List Char) : List (List Char) := rustLinesAux [] s

/-- `Buffer::load_from_str`: a fresh buffer whose `data` is the split input. -/
def Buffer.load_from_str (s : List Char) : Buffer :=
  { Buffer.new with data := rustLines s }

/-- Content written by `Buffer::save_to_file`: every line followed by the
line terminator, the last line included. -/
def Buffer.save_content (b : Buffer) : List Char :=
  (b.data.map fun line => line ++ b.endl).flatten

/-- A text assembled from lines, each terminated by `"\n"`. -/
def textOf (ls : List (List Char)) : List Char :=
  (ls.map fun l => l ++ ['\n']).flatten

/-- The cursor part of the buffer invariant: the cursor addresses an existing
line (or `(0,0)` when the buffer is empty) and a column no greater than that
line's length. -/
def cursorOk (b : Buffer) : Prop :=
  (b.data = [] → b.cursor = ⟨0, 0⟩) ∧
  (b.data ≠ [] → b.cursor.y < b.data.length) ∧
  b.cursor.x ≤ (b.data.getD b.cursor.y []).length

instance (b : Buffer) : Decidable (cursorOk b) := by
  unfold cursorOk
  infer_instance

/-- Parse failures of `EditorCommand::from_str` (`anyhow` contexts in the
source: "No command", "No filename", "Unknown command"). -/
inductive CommandError where
  | EmptyCommand
  | MissingArgument
  | UnknownCommand
deriving DecidableEq

/-- `enum EditorCommand` (`src/editor.rs`). -/
inductive EditorCommand where
  | SetFilename (name : List Char)
  | SaveAs (name : List Char)
deriving DecidableEq

/-- Modelled from the spec: the command-line tokenizer.  The source delegates
tokenization to the external `comma` crate (`comma::parse_command`), whose
code is not part of this repository; spec section 4.3 describes it as
"whitespace-separated tokens with support for quoted tokens containing
whitespace (a single argument may be wrapped in quote characters to embed
spaces)", which is modelled here as a total function. -/
def tokenizeAux (inQuote : Bool) (acc : Option (List Char)) (s : List Char) :
    List (List Char) :=
  match s with
  | [] =>
    match acc with
    | none => []
    | some a => [a]
  | c :: rest =>
    if inQuote then
      if c = '"' then tokenizeAux false (some (acc.getD [])) rest
      else tokenizeAux true (some (acc.getD [] ++ [c])) rest
    else if c = '"' then tokenizeAux true (some (acc.getD [])) rest
    else if c.isWhitespace then
      match acc with
      | none => tokenizeAux false none rest
      | some a => a :: tokenizeAux false none rest
    else tokenizeAux false (some (acc.getD [] ++ [c])) rest

/-- Token list of one command line (see `tokenizeAux`). -/
def tokenize (s : List Char) : List (List Char) := tokenizeAux false none s

/-- `EditorCommand::from_str`: the first token is the verb; `set_filename`
takes an optional argument, `save_as` a mandatory one, anything else is an
unknown command, and a missing verb is an empty command. -/
def EditorCommand.from_str (s : List Char) :
    Except CommandError EditorCommand :=
  let cmd := tokenize s
  match cmd[0]? with
  | none => Except.error CommandError.EmptyCommand
  | some v =>
    if v = str "set_filename" then
      Except.ok (EditorCommand.SetFilename ((cmd[1]?).getD []))
    else if v = str "save_as" then
      match cmd[1]? with
      | none => Except.error CommandError.MissingArgument
      | some a => Except.ok (EditorCommand.SaveAs a)
    else Except.error CommandError.UnknownCommand

/-- The command semantics exactly as the spec words it (section 4.3), defined
on a token list, to be compared with `EditorCommand.from_str`. -/
def specCommand : List (List Char) → Except CommandError EditorCommand
  | [] => Except.error CommandError.EmptyCommand
  | v :: args =>
    if v = str "set_filename" then
      Except.ok (EditorCommand.SetFilename (args.headD []))
    else if v = str "save_as" then
      match args with
      | [] => Except.error CommandError.MissingArgument
      | a :: _ => Except.ok (EditorCommand.SaveAs a)
    else Except.error CommandError.UnknownCommand

/-- `enum EditorState` (`src/editor.rs`). -/
inductive EditorState where
  | Init
  | EditMode
  | CommandMode
  | Close
deriving DecidableEq

/-- I/O failure surfaced by `Buffer::load_from_file`. -/
inductive EditorError where
  | IoError
deriving DecidableEq

/-- The editor controller (`src/editor.rs`, struct `Editor`); the keybinding
configuration and render-only fields (`config`, `last_keypress`) are not
modelled, the rest is kept. -/
structure Editor where
  window_size : Pos
  edit_buffer : Buffer
  state : EditorState
  filename : Option (List Char)
  need_full_clear : Bool
  command_buffer : Buffer
deriving DecidableEq

/-- `Buffer::load_from_file` with the file read modelled as an explicit
`Option` (`none` = `fs::read_to_string` failed). -/
def Buffer.load_from_file (readResult : Option (List Char)) :
    Except EditorError Buffer :=
  match readResult with
  | some s => Except.ok (Buffer.load_from_str s)
  | none => Except.error EditorError.IoError

/-- `Editor::set_document`: a failed load is replaced by `Buffer::new`, the
filename is recorded unconditionally, and the function returns `Ok(())`. -/
def Editor.set_document (e : Editor) (path : List Char)
    (readResult : Option (List Char)) : Except EditorError Editor :=
  let buf := match Buffer.load_from_file readResult with
    | Except.ok b => b
    | Except.error _ => Buffer.new
  Except.ok { e with edit_buffer := buf, filename := some path }

/-- `Editor::update_layout`: size the command buffer from the state, place it
above the bottom status row, then size the edit buffer with the remainder. -/
def Editor.update_layout (e : Editor) (ws : Pos) : Editor :=
  let cmdSize : Pos :=
    match e.state with
    | EditorState.EditMode => ⟨ws.x, 0⟩
    | EditorState.CommandMode =>
      ⟨ws.x, min (ws.y - 1) e.command_buffer.content_lines_len⟩
    | _ => e.command_buffer.viewport_size
  let cb := Buffer.set_top_left_corner
    (Buffer.set_viewport_size e.command_buffer cmdSize)
    ⟨0, ws.y - (1 + cmdSize.y)⟩
  let editSize : Pos :=
    match e.state with
    | EditorState.EditMode => ⟨ws.x, ws.y - 1⟩
    | EditorState.CommandMode => ⟨ws.x, ws.y - (cmdSize.y + 1)⟩
    | _ => e.edit_buffer.viewport_size
  { e with
    window_size := ws
    command_buffer := cb
    edit_buffer := Buffer.set_viewport_size e.edit_buffer editSize
    need_full_clear := true }

/-- Concrete buffer: one line `"ab"`, cursor between the two characters. -/
def bufAB : Buffer := { Buffer.new with data := [str "ab"], cursor := ⟨1, 0⟩ }

/-- Concrete buffer of the back-delete line-join scenario: lines
`["ab", "cd"]`, cursor at `(0, 1)`. -/
def bufJoin : Buffer :=
  { Buffer.new with data := [str "ab", str "cd"], cursor := ⟨0, 1⟩ }

/-- Concrete buffer: one line `"abc"`, cursor at column 1. -/
def bufABC : Buffer :=
  { Buffer.new with data := [str "abc"], cursor := ⟨1, 0⟩ }

/-- Concrete buffer with a zero viewport but scroll and cursor apart on the
`y` axis. -/
def bufZeroView : Buffer :=
  { Buffer.new with cursor := ⟨0, 5⟩, scroll := ⟨0, 2⟩ }

/-- Concrete buffer: one line `"ab"`, cursor at the origin, a roomy
viewport. -/
def bufClick : Buffer :=
  { Buffer.new with data := [str "ab"], viewport_size := ⟨5, 5⟩ }

/-- Concrete buffer with a nonzero screen origin and a horizontal scroll. -/
def bufShifted : Buffer :=
  { Buffer.new with
    data := [str "a"]
    scroll := ⟨3, 0⟩
    viewport_size := ⟨1, 1⟩
    top_left_corner := ⟨5, 0⟩ }

/-- Concrete buffer: ten empty lines under a height-3 viewport. -/
def bufTen : Buffer :=
  { Buffer.new with data := List.replicate 10 [], viewport_size := ⟨10, 3⟩ }

/-- Concrete editor sitting in command mode with a one-line command buffer. -/
def edCommand : Editor :=
  { window_size := ⟨0, 0⟩
    edit_buffer := Buffer.new
    state := EditorState.CommandMode
    filename := none
    need_full_clear := false
    command_buffer := Buffer.load_from_str (str "save_as ") }

/-- `cap_scroll` only rewrites the scroll offset: the cursor is untouched. -/
theorem cap_scroll_cursor (b : Buffer) : (Buffer.cap_scroll b).cursor = b.cursor :=
rfl

/-- `cap_scroll` only rewrites the scroll offset: the lines are untouched. -/
theorem cap_scroll_data (b : Buffer) : (Buffer.cap_scroll b).data = b.data :=
rfl

/-- C3: every `move_cursor` call clamps its target to an existing line and to
that line's length (cursor `(0,0)` when the buffer is empty), so the cursor
part of the buffer invariant holds after each call of any sequence of
`move_cursor` calls, whatever the starting buffer. -/
theorem move_cursor_preserves_invariant (b : Buffer) (pos : Pos) :
    cursorOk (Buffer.move_cursor b pos) := by
  unfold Buffer.move_cursor cursorOk
  simp only [cap_scroll_cursor, cap_scroll_data]
  by_cases hd : b.data = []
  · simp [hd]
  · have h1 : 0 < b.data.length := List.length_pos.mpr hd
    have h2 := Nat.min_le_right pos.y (b.data.length - 1)
    refine ⟨fun h => absurd h hd, fun _ => by omega, ?_⟩
    exact Nat.min_le_left _ _

/-- C5: `move_cursor_relative` adds the delta to the cursor without
delegating to `move_cursor`: on lines `["ab"]` with cursor `(0,0)` a delta of
`(10,10)` leaves the cursor at the out-of-range `(10,10)` (breaking the
cursor invariant), whereas `move_cursor` at the same target clamps to
`(2,0)`. -/
theorem move_cursor_relative_no_clamp :
    (Buffer.move_cursor_relative bufClick ⟨10, 10⟩).cursor = ⟨10, 10⟩
    ∧ ¬ cursorOk (Buffer.move_cursor_relative bufClick ⟨10, 10⟩)
    ∧ (Buffer.move_cursor bufClick ⟨10, 10⟩).cursor = ⟨2, 0⟩ :=
⟨by decide, by decide, by decide⟩

/-- C10: `set_document` succeeds whether or not the file read does: a failed
read is replaced by a fresh empty buffer instead of propagating the
`IoError`, and the document path is recorded in both cases. -/
theorem set_document_spec (e : Editor) (path : List Char)
    (r : Option (List Char)) :
    Editor.set_document e path r =
      Except.ok { e with
        edit_buffer := (match r with
          | some s => Buffer.load_from_str s
          | none => Buffer.new)
        filename := some path }
    ∧ Editor.set_document e path none =
      Except.ok { e with edit_buffer := Buffer.new, filename := some path } :=
⟨by cases r <;> rfl, rfl⟩

/-- C4 counterexample: with `viewport_size.y = 0`, `cap_scroll` does not
leave `scroll.y` unchanged: from scroll row 2 with the cursor on row 5 it
moves the scroll to row 6. -/
theorem cap_scroll_zero_viewport_changes_scroll :
    (Buffer.cap_scroll bufZeroView).scroll.y = 6
    ∧ bufZeroView.scroll.y = 2 ∧ bufZeroView.viewport_size.y = 0 :=
⟨by decide, rfl, rfl⟩

/-- C6 counterexample: with screen origin `(5,0)` and scroll `(3,0)` the
single yielded row sits at screen x-coordinate `2 = 5 - 3`, not at the
screen origin's x-coordinate 5. -/
theorem get_viewport_screen_x_counterexample :
    Buffer.get_viewport bufShifted = [(⟨2, 0⟩, str "a")]
    ∧ (2 : Nat) ≠ bufShifted.top_left_corner.x :=
⟨by decide, by decide⟩

/-- C1: evaluation at the failing input.  On lines `["ab"]` with cursor
`(1,0)`, `delete_n_chars_back_from_cursor 2` leaves `[""]` — the short-line
branch replaces the whole current line by the empty string, so the unit
after the cursor (`'b'`) is deleted too, although only `min(2,1) = 1` unit
(`'a'`) lies before the cursor.  The join scenario of the claim does hold. -/
theorem delete_back_clears_tail_of_line :
    Buffer.delete_n_chars_back_from_cursor bufAB 2 =
      some { bufAB with data := [[]], cursor := ⟨0, 0⟩ }
    ∧ [([] : List Char)] ≠ [str "b"]
    ∧ Buffer.delete_n_chars_back_from_cursor bufJoin 1 =
      some { bufJoin with data := [str "abcd"], cursor := ⟨2, 0⟩ } := by
  refine ⟨?_, by decide, ?_⟩ <;>
    simp [Buffer.delete_n_chars_back_from_cursor, bufAB, bufJoin, Buffer.new,
      str, deleteBackLoop, Buffer.cap_scroll, wrapPred, USIZE_MAX]

/-- C2: evaluation at the failing input.  On lines `["abc"]` with cursor
`(1,0)`, `move_right_n 3` parks the cursor at the line end `(3,0)` but
returns `moved = 1`, not the 2 units actually traversed: the partial-line
branch adds `cursor.x` instead of `line_len - cursor.x` to the count. -/
theorem move_right_n_miscounts :
    (Buffer.move_right_n bufABC 3).2 = 1
    ∧ (Buffer.move_right_n bufABC 3).1.cursor = ⟨3, 0⟩
    ∧ (Buffer.move_right_n bufABC 3).2 ≠
        (Buffer.move_right_n bufABC 3).1.cursor.x - bufABC.cursor.x := by
  refine ⟨?_, ?_, ?_⟩ <;>
    simp [Buffer.move_right_n, bufABC, Buffer.new, str, moveRightLoop,
      Buffer.cap_scroll, wrapPred, USIZE_MAX]

/-- C4 (amended): `cap_scroll` follows the claimed three-branch rule on each
axis and guarantees the visibility contract whenever the viewport size is
positive in that axis, with the threshold `scroll + viewport_size - 1`
computed with a saturating decrement on `y` and wrapping `usize` arithmetic
on `x`; but an axis with viewport size 0 is not left unchanged: on the `y`
axis the scroll still snaps to `cursor` when `cursor < scroll` and to
`cursor + 1` when `cursor > scroll`, staying put only when they are equal.
The height-3 / 10-line scenario holds: moving the cursor to line 7 scrolls
to row 5. -/
theorem cap_scroll_amended (b : Buffer) :
    (b.cursor.x < b.scroll.x → (Buffer.cap_scroll b).scroll.x = b.cursor.x)
    ∧ (0 < b.viewport_size.x →
        b.scroll.x + b.viewport_size.x - 1 < b.cursor.x →
        (Buffer.cap_scroll b).scroll.x = b.cursor.x - b.viewport_size.x + 1)
    ∧ (0 < b.viewport_size.x → b.scroll.x ≤ b.cursor.x →
        b.cursor.x ≤ b.scroll.x + b.viewport_size.x - 1 →
        (Buffer.cap_scroll b).scroll.x = b.scroll.x)
    ∧ (0 < b.viewport_size.x →
        (Buffer.cap_scroll b).scroll.x ≤ b.cursor.x ∧
        b.cursor.x ≤ (Buffer.cap_scroll b).scroll.x + b.viewport_size.x - 1)
    ∧ (b.cursor.y < b.scroll.y → (Buffer.cap_scroll b).scroll.y = b.cursor.y)
    ∧ (0 < b.viewport_size.y →
        b.scroll.y + b.viewport_size.y - 1 < b.cursor.y →
        (Buffer.cap_scroll b).scroll.y = b.cursor.y - b.viewport_size.y + 1)
    ∧ (0 < b.viewport_size.y → b.scroll.y ≤ b.cursor.y →
        b.cursor.y ≤ b.scroll.y + b.viewport_size.y - 1 →
        (Buffer.cap_scroll b).scroll.y = b.scroll.y)
    ∧ (0 < b.viewport_size.y →
        (Buffer.cap_scroll b).scroll.y ≤ b.cursor.y ∧
        b.cursor.y ≤ (Buffer.cap_scroll b).scroll.y + b.viewport_size.y - 1)
    ∧ (b.viewport_size.y = 0 → b.scroll.y < b.cursor.y →
        (Buffer.cap_scroll b).scroll.y = b.cursor.y + 1)
    ∧ (b.viewport_size.y = 0 → b.cursor.y = b.scroll.y →
        (Buffer.cap_scroll b).scroll.y = b.scroll.y)
    ∧ (Buffer.move_cursor bufTen ⟨0, 7⟩).scroll.y = 5
    ∧ (Buffer.move_cursor bufTen ⟨0, 7⟩).cursor.y = 7 := by
  refine ⟨?_, ?_, ?_, ?_, ?_, ?_, ?_, ?_, ?_, ?_, by decide, by decide⟩ <;>
  · intros
    unfold Buffer.cap_scroll wrapPred USIZE_MAX
    dsimp only
    split_ifs <;> omega

/-- C4 witness: the visibility contract of `cap_scroll_amended` discharged
at the concrete ten-line buffer with viewport height 3. -/
theorem cap_scroll_amended_witness :
    0 < bufTen.viewport_size.y ∧
      (Buffer.cap_scroll bufTen).scroll.y ≤ bufTen.cursor.y :=
⟨by decide, ((cap_scroll_amended bufTen).2.2.2.2.2.2.2.1 (by decide)).1⟩

/-- `filterMap` only depends on the values of the function on the list. -/
theorem filterMap_congr_mem {α β : Type} (l : List α) (f g : α → Option β)
    (h : ∀ a ∈ l, f a = g a) : l.filterMap f = l.filterMap g := by
  induction l with
  | nil => rfl
  | cons a l ih =>
    simp only [List.filterMap_cons]
    rw [h a (List.mem_cons_self a l), ih fun x hx => h x (List.mem_cons_of_mem a hx)]

/-- C6 (amended): `get_viewport` yields, for each `y` in
`[scroll.y, scroll.y + viewport_size.y)` at which a line exists and in
increasing `y` order, the pair whose screen y-coordinate is
`screen_origin.y + (y - scroll.y)` as claimed, but whose screen x-coordinate
is `screen_origin.x - scroll.x` (saturating) — it equals `screen_origin.x`
only when `scroll.x = 0` or `screen_origin.x = 0`, not regardless of
`scroll.x`. -/
theorem get_viewport_amended (b : Buffer) :
    Buffer.get_viewport b =
      (List.range' b.scroll.y b.viewport_size.y).filterMap fun y =>
        (b.data[y]?).map fun line =>
          (Pos.mk (b.top_left_corner.x - b.scroll.x)
            (b.top_left_corner.y + (y - b.scroll.y)), line) := by
  unfold Buffer.get_viewport
  refine filterMap_congr_mem _ _ _ fun y hy => ?_
  have hsy : b.scroll.y ≤ y := (List.mem_range'_1.mp hy).1
  have hpos : b.top_left_corner + Pos.mk 0 y - b.scroll =
      Pos.mk (b.top_left_corner.x - b.scroll.x)
        (b.top_left_corner.y + (y - b.scroll.y)) := by
    show Pos.ssub (Pos.add b.top_left_corner (Pos.mk 0 y)) b.scroll = _
    unfold Pos.ssub Pos.add
    simp only [Pos.mk.injEq]
    omega
  rw [hpos]

/-- One `'\n'`-free chunk followed by a terminator peels off as one line
(with a carriage return directly before the terminator stripped). -/
theorem rustLinesAux_append_newline (l : List Char) (acc r : List Char)
    (h : '\n' ∉ l) :
    rustLinesAux acc (l ++ '\n' :: r) =
      stripTrailCR (acc ++ l) :: rustLinesAux [] r := by
  induction l generalizing acc with
  | nil => simp [rustLinesAux]
  | cons c l ih =>
    have hc : ¬ c = '\n' := fun hc => h (hc ▸ List.mem_cons_self c l)
    simp only [List.cons_append, rustLinesAux, if_neg hc, List.append_eq]
    rw [ih (acc ++ [c]) fun hm => h (List.mem_cons_of_mem c hm),
      List.append_assoc]
    rfl

/-- Loading a text assembled from terminator-free lines that do not end in a
carriage return recovers exactly those lines. -/
theorem rustLines_textOf (ls : List (List Char))
    (h : ∀ l ∈ ls, '\n' ∉ l ∧ l.getLast? ≠ some '\r') :
    rustLines (textOf ls) = ls := by
  induction ls with
  | nil => rfl
  | cons l ls ih =>
    have hl := h l (List.mem_cons_self l ls)
    have hstep : textOf (l :: ls) = l ++ '\n' :: textOf ls := by
      simp [textOf]
    rw [rustLines, hstep, rustLinesAux_append_newline l [] (textOf ls) hl.1,
      List.nil_append,
      show stripTrailCR l = l from by unfold stripTrailCR; rw [if_neg hl.2]]
    exact congrArg (l :: ·) (ih fun x hx => h x (List.mem_cons_of_mem l hx))

/-- C7 (amended): for every list of lines that contain no `'\n'` and do not
end in `'\r'`, saving the buffer loaded from the terminator-joined text
reproduces that text exactly, every line (the last included) terminated by
the default `"\n"` terminator.  (Lines ending in `'\r'` must be excluded:
loading also treats `"\r\n"` as a line boundary and discards the `'\r'`.) -/
theorem save_load_round_trip (ls : List (List Char))
    (h : ∀ l ∈ ls, '\n' ∉ l ∧ l.getLast? ≠ some '\r') :
    (Buffer.load_from_str (textOf ls)).save_content = textOf ls := by
  unfold Buffer.save_content Buffer.load_from_str
  dsimp only
  rw [rustLines_textOf ls h]
  rfl

/-- C7 witness: the round trip discharged on the two lines `"ab"`, `"cd"`. -/
theorem save_load_round_trip_witness :
    (∀ l ∈ [str "ab", str "cd"], '\n' ∉ l ∧ l.getLast? ≠ some '\r')
    ∧ (Buffer.load_from_str (textOf [str "ab", str "cd"])).save_content =
        textOf [str "ab", str "cd"] :=
⟨by decide, save_load_round_trip [str "ab", str "cd"] (by decide)⟩

/-- C7 counterexample: the text `"a\r\n"` consists of the single line
`"a\r"`, which does not contain the `"\n"` terminator, yet saving the loaded
buffer produces `"a\n"`: loading discarded the `'\r'` of the `"\r\n"`
boundary, so the round trip does not reproduce the text. -/
theorem save_load_cr_counterexample :
    textOf [str "a\r"] = str "a\r\n"
    ∧ '\n' ∉ str "a\r"
    ∧ (Buffer.load_from_str (str "a\r\n")).save_content = str "a\n"
    ∧ str "a\n" ≠ str "a\r\n" :=
⟨by decide, by decide, by decide, by decide⟩

/-- A command line with a verb never parses to the empty-command error. -/
theorem specCommand_cons_ne_empty (v : List Char) (args : List (List Char)) :
    specCommand (v :: args) ≠ Except.error CommandError.EmptyCommand := by
  simp only [specCommand]
  split_ifs
  · simp
  · cases args <;> simp
  · simp

/-- C8: command parsing fails with the empty-command error exactly when the
input tokenizes to no verb token, and otherwise follows the spec's verb
dispatch: `set_filename` with an optional argument, `save_as` with a
mandatory one (missing-argument error when absent), and an unknown-command
error for every other verb.  The tokenizer is the spec-modelled
`tokenize`. -/
theorem from_str_spec (s : List Char) :
    (EditorCommand.from_str s = Except.error CommandError.EmptyCommand ↔
      tokenize s = [])
    ∧ EditorCommand.from_str s = specCommand (tokenize s) := by
  have h2 : EditorCommand.from_str s = specCommand (tokenize s) := by
    simp only [EditorCommand.from_str]
    cases tokenize s with
    | nil => simp [specCommand]
    | cons v args => cases args <;> simp [specCommand]
  refine ⟨?_, h2⟩
  rw [h2]
  cases tokenize s with
  | nil => simp [specCommand]
  | cons v args =>
    simp only [List.cons_ne_nil, iff_false]
    exact specCommand_cons_ne_empty v args

/-- C9: after `update_layout` on a terminal of height at least 1, edit mode
hides the command buffer (height 0) and gives the edit buffer
`terminal_height - 1` rows; command mode sizes the command buffer to
`min(terminal_height - 1, its content line count)`, places it directly above
the bottom status row, and gives the edit buffer the remainder; in both
modes the two heights plus the one status row partition the terminal
height. -/
theorem update_layout_spec (e : Editor) (ws : Pos) (h1 : 1 ≤ ws.y) :
    (e.state = EditorState.EditMode →
      (e.update_layout ws).command_buffer.viewport_size.y = 0
      ∧ (e.update_layout ws).edit_buffer.viewport_size.y = ws.y - 1
      ∧ (e.update_layout ws).edit_buffer.viewport_size.y
          + (e.update_layout ws).command_buffer.viewport_size.y + 1 = ws.y)
    ∧ (e.state = EditorState.CommandMode →
      (e.update_layout ws).command_buffer.viewport_size.y
          = min (ws.y - 1) e.command_buffer.content_lines_len
      ∧ (e.update_layout ws).command_buffer.top_left_corner.y
          + (e.update_layout ws).command_buffer.viewport_size.y = ws.y - 1
      ∧ (e.update_layout ws).edit_buffer.viewport_size.y
          = ws.y - ((e.update_layout ws).command_buffer.viewport_size.y + 1)
      ∧ (e.update_layout ws).edit_buffer.viewport_size.y
          + (e.update_layout ws).command_buffer.viewport_size.y + 1 = ws.y) := by
  constructor
  · intro hs
    unfold Editor.update_layout Buffer.set_viewport_size Buffer.set_top_left_corner
    rw [hs]
    refine ⟨rfl, rfl, ?_⟩
    dsimp only
    omega
  · intro hs
    unfold Editor.update_layout Buffer.set_viewport_size Buffer.set_top_left_corner
    rw [hs]
    refine ⟨rfl, ?_, rfl, ?_⟩ <;>
    · dsimp only
      omega

/-- C9 witness: the command-mode layout discharged on a 80x24 terminal with
a one-line command buffer. -/
theorem update_layout_spec_witness :
    (1 ≤ (Pos.mk 80 24).y ∧ edCommand.state = EditorState.CommandMode)
    ∧ (edCommand.update_layout ⟨80, 24⟩).command_buffer.viewport_size.y
        = min ((Pos.mk 80 24).y - 1) edCommand.command_buffer.content_lines_len :=
⟨⟨by decide, by decide⟩,
  ((update_layout_spec edCommand ⟨80, 24⟩ (by decide)).2 (by decide)).1⟩

end Rudit
